import Mathlib

/-!
Shallow embedding of `ContElements/Barks.py` (class `Barks`), the flow
byte-accounting component: per-flow sent/received byte counts, forward/reverse
header-byte counts, derived rates and ratios, session-wide cumulative totals
gated on the class-level `row` counter, and the initial IP time-to-live of a
flow.  Python machine state (the class attributes of `Barks`) is modelled by
explicit state passing over a `SessionCounters` record; Python integers are
`Int`/`Nat`; float division is modelled over `ℚ`; the fallible TTL lookup
returns `Option`.
-/

namespace Barks

/-- Direction tag attached to each packet by the flow assembler
(`ContElements/Context/PacketDirection`): same direction as the flow's first
packet, or the response direction. -/
inductive PacketDirection where
  | FORWARD
  | REVERSE
deriving DecidableEq, Repr

/-- The fields of a captured packet that `Barks` consumes: the link-layer
source address (`packet.src`), the IP protocol number (`packet.proto`), the
captured total length (`len(packet)`), and the IP time-to-live
(`packet['IP'].ttl`), present only when the packet has an IP layer. -/
structure Packet where
  src : String
  proto : Nat
  len : Nat
  ipTtl : Option Nat
deriving DecidableEq, Repr

/-- The flow context handed to `Barks.__init__` as `feature`: the ordered
`(packet, direction)` pairs of one flow plus the capture interface id. -/
structure FlowContext where
  interface : String
  packets : List (Packet × PacketDirection)
deriving DecidableEq, Repr

/-- Serialized length of a default (option-less) scapy `Ether()` header:
the value of `len(Ether())` used by the source's local `header_size`. -/
def ether_header_len : Nat := 14

/-- Serialized length of a default (option-less) scapy `IP()` header:
the value of `len(IP())` used by the source's local `header_size`. -/
def ip_header_len : Nat := 20

/-- Serialized length of a default (option-less) scapy `TCP()` header:
the value of `len(TCP())` used by the source's local `header_size`. -/
def tcp_header_len : Nat := 20

/-- The local `header_size` function shared by `get_forward_header_bytes` and
`get_reverse_header_bytes`: `res = len(Ether()) + len(IP())`, plus `len(TCP())`
when `packet.proto == 6`. -/
def header_size (p : Packet) : Nat :=
  let res := ether_header_len + ip_header_len
  if p.proto = 6 then res + tcp_header_len else res

/-- `Barks.get_bytes_sent`: sum of `len(packet)` over the flow's packets whose
source address equals the local hardware address `hw feat.interface`
(the Python resolves it via `get_if_hwaddr`, modelled by the function `hw`). -/
def get_bytes_sent (hw : String → String) (feat : FlowContext) : Nat :=
  ((feat.packets.filter fun pd => pd.1.src == hw feat.interface).map
    fun pd => pd.1.len).sum

/-- `Barks.get_bytes_received`: sum of `len(packet)` over the flow's packets
whose source address differs from the local hardware address. -/
def get_bytes_received (hw : String → String) (feat : FlowContext) : Nat :=
  ((feat.packets.filter fun pd => pd.1.src != hw feat.interface).map
    fun pd => pd.1.len).sum

/-- `Barks.get_forward_header_bytes`: sum of `header_size packet` over the
packets tagged `PacketDirection.FORWARD`. -/
def get_forward_header_bytes (feat : FlowContext) : Nat :=
  ((feat.packets.filter fun pd => pd.2 == PacketDirection.FORWARD).map
    fun pd => header_size pd.1).sum

/-- `Barks.get_reverse_header_bytes`: sum of `header_size packet` over the
packets tagged `PacketDirection.REVERSE`. -/
def get_reverse_header_bytes (feat : FlowContext) : Nat :=
  ((feat.packets.filter fun pd => pd.2 == PacketDirection.REVERSE).map
    fun pd => header_size pd.1).sum

/-- Modelled from the spec: the Duration Provider
(`ContFreeElements/PacketTime.get_duration`, not under `src/`) exposes "the
elapsed duration of the flow in seconds" (elapsed time between first and last
packet), hence a nonnegative number; modelled as a nonnegative rational. -/
def DurationValid (duration : ℚ) : Prop := 0 ≤ duration

/-- `Barks.get_sent_rate`: `-1` when the externally provided duration is `0`,
otherwise `bytes_sent / duration`. -/
def get_sent_rate (hw : String → String) (feat : FlowContext) (duration : ℚ) : ℚ :=
  let sent := get_bytes_sent hw feat
  if duration = 0 then -1 else (sent : ℚ) / duration

/-- `Barks.get_received_rate`: `-1` when the duration is `0`, otherwise
`bytes_received / duration`. -/
def get_received_rate (hw : String → String) (feat : FlowContext) (duration : ℚ) : ℚ :=
  let received := get_bytes_received hw feat
  if duration = 0 then -1 else (received : ℚ) / duration

/-- `Barks.get_forward_rate`: note the source branches on `duration > 0` here
(`forward / duration` when positive, else `-1`), unlike the other three rate
getters which branch on `duration == 0`. -/
def get_forward_rate (feat : FlowContext) (duration : ℚ) : ℚ :=
  let forward := get_forward_header_bytes feat
  if 0 < duration then (forward : ℚ) / duration else -1

/-- `Barks.get_reverse_rate`: `-1` when the duration is `0`, otherwise
`reverse_header_bytes / duration`. -/
def get_reverse_rate (feat : FlowContext) (duration : ℚ) : ℚ :=
  let reverse := get_reverse_header_bytes feat
  if duration = 0 then -1 else (reverse : ℚ) / duration

/-- `Barks.get_header_in_out_ratio`: starts from `-1` and overwrites it with
`forward_header_bytes / reverse_header_bytes` when the denominator is
nonzero. -/
def get_header_in_out_ratio (feat : FlowContext) : ℚ :=
  let reverse_header_bytes := get_reverse_header_bytes feat
  let forward_header_bytes := get_forward_header_bytes feat
  let r0 : ℚ := -1
  if reverse_header_bytes ≠ 0 then
    (forward_header_bytes : ℚ) / (reverse_header_bytes : ℚ)
  else r0

/-- The class-level mutable attributes of `Barks`, shared across every flow
accountant of one capture session; all initialized to `0` at class definition
time.  `row` is the flow count incremented by `Barks.__init__`. -/
structure SessionCounters where
  total_bytes_received : Int
  total_bytes_sent : Int
  total_forward_header_bytes : Int
  total_reverse_header_bytes : Int
  row : Nat
deriving DecidableEq, Repr

/-- The class attribute values at process start: every counter is `0`. -/
def freshCounters : SessionCounters :=
  { total_bytes_received := 0
    total_bytes_sent := 0
    total_forward_header_bytes := 0
    total_reverse_header_bytes := 0
    row := 0 }

/-- `Barks.__init__`: constructing a flow accountant increments the class-level
`row` counter by one (the stored `feature` is passed separately to each
getter in this embedding). -/
def init (s : SessionCounters) : SessionCounters :=
  { s with row := s.row + 1 }

/-- `Barks.get_total_bytes_sent`: when `row == 1` the class counter is set to
`get_bytes_sent() - get_bytes_sent()`, otherwise the flow's `get_bytes_sent()`
is added; the (value, updated state) pair models the return plus the class
attribute mutation. -/
def get_total_bytes_sent (hw : String → String) (feat : FlowContext)
    (s : SessionCounters) : Int × SessionCounters :=
  if s.row = 1 then
    let t : Int := (get_bytes_sent hw feat : Int) - (get_bytes_sent hw feat : Int)
    (t, { s with total_bytes_sent := t })
  else
    let t : Int := s.total_bytes_sent + (get_bytes_sent hw feat : Int)
    (t, { s with total_bytes_sent := t })

/-- `Barks.get_total_bytes_received`: same two-branch policy on `row` over the
`total_bytes_received` class counter. -/
def get_total_bytes_received (hw : String → String) (feat : FlowContext)
    (s : SessionCounters) : Int × SessionCounters :=
  if s.row = 1 then
    let t : Int := (get_bytes_received hw feat : Int) - (get_bytes_received hw feat : Int)
    (t, { s with total_bytes_received := t })
  else
    let t : Int := s.total_bytes_received + (get_bytes_received hw feat : Int)
    (t, { s with total_bytes_received := t })

/-- `Barks.get_total_forward_bytes`: same two-branch policy on `row` over the
`total_forward_header_bytes` class counter. -/
def get_total_forward_bytes (feat : FlowContext)
    (s : SessionCounters) : Int × SessionCounters :=
  if s.row = 1 then
    let t : Int := (get_forward_header_bytes feat : Int) - (get_forward_header_bytes feat : Int)
    (t, { s with total_forward_header_bytes := t })
  else
    let t : Int := s.total_forward_header_bytes + (get_forward_header_bytes feat : Int)
    (t, { s with total_forward_header_bytes := t })

/-- `Barks.get_total_reverse_bytes`: same two-branch policy on `row` over the
`total_reverse_header_bytes` class counter. -/
def get_total_reverse_bytes (feat : FlowContext)
    (s : SessionCounters) : Int × SessionCounters :=
  if s.row = 1 then
    let t : Int := (get_reverse_header_bytes feat : Int) - (get_reverse_header_bytes feat : Int)
    (t, { s with total_reverse_header_bytes := t })
  else
    let t : Int := s.total_reverse_header_bytes + (get_reverse_header_bytes feat : Int)
    (t, { s with total_reverse_header_bytes := t })

/-- `Barks.get_total_header_in_out_ratio`: reads the two class-level header
totals (mutating nothing) and returns `-1` when the reverse total is zero,
otherwise their quotient. -/
def get_total_header_in_out_ratio (s : SessionCounters) : ℚ :=
  let reverse_header_bytes := s.total_reverse_header_bytes
  let forward_header_bytes := s.total_forward_header_bytes
  let r0 : ℚ := -1
  if reverse_header_bytes ≠ 0 then
    (forward_header_bytes : ℚ) / (reverse_header_bytes : ℚ)
  else r0

/-- The list `[packet['IP'].ttl for packet, _ in feat.packets]`: the TTL of
every packet in order, failing (as the comprehension raises) as soon as some
packet has no IP layer. -/
def ttlList : List (Packet × PacketDirection) → Option (List Nat)
  | [] => some []
  | pd :: rest =>
    match pd.1.ipTtl, ttlList rest with
    | some t, some ts => some (t :: ts)
    | _, _ => none

/-- `Barks.get_initial_ttl`: builds the TTL list of the whole flow and then
takes element `[0]`; failure of either step (a packet without an IP layer, or
an empty flow) is `none`. -/
def get_initial_ttl (feat : FlowContext) : Option Nat :=
  (ttlList feat.packets).bind fun ts => ts[0]?

/-!  Session executions.  An `Event` is one step of a capture session: the
construction of a flow accountant, or the invocation of one total-* getter of
the `i`-th accountant constructed so far.  `SessionState` carries the shared
class attributes together with the flow contexts of the accountants
constructed so far, so that a later event can invoke a getter of an earlier
accountant. -/

/-- One step of a session execution. -/
inductive Event where
  | construct (feat : FlowContext)
  | callSent (i : Nat)
  | callReceived (i : Nat)
  | callForward (i : Nat)
  | callReverse (i : Nat)
deriving DecidableEq, Repr

/-- The shared class attributes plus the flow contexts of the accountants
constructed so far, in construction order. -/
structure SessionState where
  counters : SessionCounters
  flows : List FlowContext
deriving DecidableEq, Repr

/-- A fresh session: class attributes at their initial zeros, no accountant
constructed yet. -/
def freshSession : SessionState :=
  { counters := freshCounters, flows := [] }

/-- Execute one event: a construction runs `Barks.__init__` (incrementing
`row`) and records the accountant's flow context; a getter call runs the
corresponding total-* getter of the `i`-th constructed accountant against the
shared class attributes (and is a no-op on an index never constructed). -/
def stepEvent (hw : String → String) (s : SessionState) (e : Event) : SessionState :=
  match e with
  | .construct feat => { counters := init s.counters, flows := s.flows ++ [feat] }
  | .callSent i =>
    match s.flows[i]? with
    | some feat => { s with counters := (get_total_bytes_sent hw feat s.counters).2 }
    | none => s
  | .callReceived i =>
    match s.flows[i]? with
    | some feat => { s with counters := (get_total_bytes_received hw feat s.counters).2 }
    | none => s
  | .callForward i =>
    match s.flows[i]? with
    | some feat => { s with counters := (get_total_forward_bytes feat s.counters).2 }
    | none => s
  | .callReverse i =>
    match s.flows[i]? with
    | some feat => { s with counters := (get_total_reverse_bytes feat s.counters).2 }
    | none => s

/-- Execute a whole session trace in order. -/
def runTrace (hw : String → String) (events : List Event) (s : SessionState) : SessionState :=
  events.foldl (stepEvent hw) s

/-- Sequential processing of one flow: the accountant is constructed and each
of the four total-* getters is invoked at most once (the four flags) before
the next accountant exists. -/
structure FlowJob where
  feat : FlowContext
  callSent : Bool
  callReceived : Bool
  callForward : Bool
  callReverse : Bool

/-- Process one flow sequentially: `Barks.__init__`, then the selected
total-* getters (each at most once). -/
def processFlow (hw : String → String) (j : FlowJob) (s : SessionCounters) : SessionCounters :=
  let s1 := init s
  let s2 := if j.callSent then (get_total_bytes_sent hw j.feat s1).2 else s1
  let s3 := if j.callReceived then (get_total_bytes_received hw j.feat s2).2 else s2
  let s4 := if j.callForward then (get_total_forward_bytes j.feat s3).2 else s3
  if j.callReverse then (get_total_reverse_bytes j.feat s4).2 else s4

/-- Process a list of flows sequentially, in order. -/
def runSession (hw : String → String) (jobs : List FlowJob) (s : SessionCounters) : SessionCounters :=
  jobs.foldl (fun s j => processFlow hw j s) s

/-- Sum of `get_bytes_sent` over the jobs that invoke the sent total. -/
def sumSent (hw : String → String) : List FlowJob → Int
  | [] => 0
  | j :: rest =>
    (if j.callSent then (get_bytes_sent hw j.feat : Int) else 0) + sumSent hw rest

/-- Sum of `get_bytes_received` over the jobs that invoke the received total. -/
def sumReceived (hw : String → String) : List FlowJob → Int
  | [] => 0
  | j :: rest =>
    (if j.callReceived then (get_bytes_received hw j.feat : Int) else 0) + sumReceived hw rest

/-- Sum of `get_forward_header_bytes` over the jobs that invoke the forward total. -/
def sumForward : List FlowJob → Int
  | [] => 0
  | j :: rest =>
    (if j.callForward then (get_forward_header_bytes j.feat : Int) else 0) + sumForward rest

/-- Sum of `get_reverse_header_bytes` over the jobs that invoke the reverse total. -/
def sumReverse : List FlowJob → Int
  | [] => 0
  | j :: rest =>
    (if j.callReverse then (get_reverse_header_bytes j.feat : Int) else 0) + sumReverse rest

/-!  Concrete sample data used by counterexamples and witnesses. -/

/-- A resolver mapping every interface id to the hardware address `"m"`. -/
def hw0 : String → String := fun _ => "m"

/-- A one-packet flow sent by the local host, 5 bytes long. -/
def flowA : FlowContext :=
  { interface := "e", packets := [({ src := "m", proto := 17, len := 5, ipTtl := some 64 }, .FORWARD)] }

/-- `flowA` with its packet list emptied: its per-flow statistics are all 0. -/
def flowA0 : FlowContext :=
  { interface := "e", packets := [] }

/-- A one-packet flow sent by the local host, 7 bytes long. -/
def flowB : FlowContext :=
  { interface := "e", packets := [({ src := "m", proto := 17, len := 7, ipTtl := some 64 }, .FORWARD)] }

/-- A two-packet flow whose first packet has an IP layer (TTL 64) and whose
second packet has none. -/
def flowNoIp : FlowContext :=
  { interface := "e"
    packets := [({ src := "m", proto := 6, len := 100, ipTtl := some 64 }, .FORWARD),
                ({ src := "x", proto := 17, len := 60, ipTtl := none }, .REVERSE)] }

/-- A three-packet TCP flow: lengths 100, 60, 60; the first two sent by the
local host and tagged FORWARD, the third received and tagged REVERSE. -/
def flowC : FlowContext :=
  { interface := "e"
    packets := [({ src := "m", proto := 6, len := 100, ipTtl := some 64 }, .FORWARD),
                ({ src := "m", proto := 6, len := 60, ipTtl := some 64 }, .FORWARD),
                ({ src := "x", proto := 6, len := 60, ipTtl := some 60 }, .REVERSE)] }

/-!  Helper lemmas: each total-* getter's returned value and updated state,
written as one equation over both branches of the `row == 1` test. -/

/-- The state produced by `get_total_bytes_sent` updates only the
`total_bytes_sent` field, by the branch selected on `row`. -/
theorem get_total_bytes_sent_snd (hw : String → String) (feat : FlowContext)
    (s : SessionCounters) :
    (get_total_bytes_sent hw feat s).2 =
      { s with total_bytes_sent :=
          if s.row = 1 then (get_bytes_sent hw feat : Int) - (get_bytes_sent hw feat : Int)
          else s.total_bytes_sent + (get_bytes_sent hw feat : Int) } := by
  unfold get_total_bytes_sent; split <;> simp_all

/-- The value returned by `get_total_bytes_sent`, by the branch selected on
`row`. -/
theorem get_total_bytes_sent_fst (hw : String → String) (feat : FlowContext)
    (s : SessionCounters) :
    (get_total_bytes_sent hw feat s).1 =
      if s.row = 1 then (get_bytes_sent hw feat : Int) - (get_bytes_sent hw feat : Int)
      else s.total_bytes_sent + (get_bytes_sent hw feat : Int) := by
  unfold get_total_bytes_sent; split <;> simp_all

/-- The state produced by `get_total_bytes_received` updates only the
`total_bytes_received` field. -/
theorem get_total_bytes_received_snd (hw : String → String) (feat : FlowContext)
    (s : SessionCounters) :
    (get_total_bytes_received hw feat s).2 =
      { s with total_bytes_received :=
          if s.row = 1 then (get_bytes_received hw feat : Int) - (get_bytes_received hw feat : Int)
          else s.total_bytes_received + (get_bytes_received hw feat : Int) } := by
  unfold get_total_bytes_received; split <;> simp_all

/-- The value returned by `get_total_bytes_received`. -/
theorem get_total_bytes_received_fst (hw : String → String) (feat : FlowContext)
    (s : SessionCounters) :
    (get_total_bytes_received hw feat s).1 =
      if s.row = 1 then (get_bytes_received hw feat : Int) - (get_bytes_received hw feat : Int)
      else s.total_bytes_received + (get_bytes_received hw feat : Int) := by
  unfold get_total_bytes_received; split <;> simp_all

/-- The state produced by `get_total_forward_bytes` updates only the
`total_forward_header_bytes` field. -/
theorem get_total_forward_bytes_snd (feat : FlowContext) (s : SessionCounters) :
    (get_total_forward_bytes feat s).2 =
      { s with total_forward_header_bytes :=
          if s.row = 1 then
            (get_forward_header_bytes feat : Int) - (get_forward_header_bytes feat : Int)
          else s.total_forward_header_bytes + (get_forward_header_bytes feat : Int) } := by
  unfold get_total_forward_bytes; split <;> simp_all

/-- The value returned by `get_total_forward_bytes`. -/
theorem get_total_forward_bytes_fst (feat : FlowContext) (s : SessionCounters) :
    (get_total_forward_bytes feat s).1 =
      if s.row = 1 then
        (get_forward_header_bytes feat : Int) - (get_forward_header_bytes feat : Int)
      else s.total_forward_header_bytes + (get_forward_header_bytes feat : Int) := by
  unfold get_total_forward_bytes; split <;> simp_all

/-- The state produced by `get_total_reverse_bytes` updates only the
`total_reverse_header_bytes` field. -/
theorem get_total_reverse_bytes_snd (feat : FlowContext) (s : SessionCounters) :
    (get_total_reverse_bytes feat s).2 =
      { s with total_reverse_header_bytes :=
          if s.row = 1 then
            (get_reverse_header_bytes feat : Int) - (get_reverse_header_bytes feat : Int)
          else s.total_reverse_header_bytes + (get_reverse_header_bytes feat : Int) } := by
  unfold get_total_reverse_bytes; split <;> simp_all

/-- The value returned by `get_total_reverse_bytes`. -/
theorem get_total_reverse_bytes_fst (feat : FlowContext) (s : SessionCounters) :
    (get_total_reverse_bytes feat s).1 =
      if s.row = 1 then
        (get_reverse_header_bytes feat : Int) - (get_reverse_header_bytes feat : Int)
      else s.total_reverse_header_bytes + (get_reverse_header_bytes feat : Int) := by
  unfold get_total_reverse_bytes; split <;> simp_all

/-- Filtering a list by a Boolean predicate and by its negation partitions the
list: the two filtered sums of `g` add up to the full sum of `g`. -/
theorem sum_map_filter_partition {α : Type} (p : α → Bool) (g : α → Nat) (l : List α) :
    ((l.filter p).map g).sum + ((l.filter fun a => !(p a)).map g).sum = (l.map g).sum := by
  induction l with
  | nil => rfl
  | cons a t ih =>
    cases h : p a <;> simp [List.filter_cons, h] <;> omega

/-- C9: for every packet, the per-packet header size used by the forward and
reverse header-byte getters is 14 + 20 + 20 = 54 bytes when the protocol
number is 6 (TCP) and 14 + 20 = 34 bytes otherwise, independently of the
packet's actual header contents. -/
theorem C9_header_size_value (p : Packet) :
    header_size p = if p.proto = 6 then 54 else 34 := by
  unfold header_size ether_header_len ip_header_len tcp_header_len
  split <;> rfl

/-- C7: for every flow and every local-address resolver, bytes sent plus bytes
received equals the sum of the captured length over all packets of the flow
(the source-equals-local-address partition is total and non-overlapping). -/
theorem C7_sent_received_partition (hw : String → String) (feat : FlowContext) :
    get_bytes_sent hw feat + get_bytes_received hw feat =
      (feat.packets.map fun pd => pd.1.len).sum := by
  have h := sum_map_filter_partition (fun pd => pd.1.src == hw feat.interface)
    (fun pd => pd.1.len) feat.packets
  unfold get_bytes_sent get_bytes_received
  simpa [bne] using h

/-- C8: for every flow (each packet carries exactly one of the two direction
tags), forward header bytes plus reverse header bytes equals the sum of
`header_size` over all packets of the flow. -/
theorem C8_header_partition (feat : FlowContext) :
    get_forward_header_bytes feat + get_reverse_header_bytes feat =
      (feat.packets.map fun pd => header_size pd.1).sum := by
  have hfun : (fun pd : Packet × PacketDirection => pd.2 == PacketDirection.REVERSE) =
      fun pd => !(pd.2 == PacketDirection.FORWARD) := by
    funext pd
    obtain ⟨p, d⟩ := pd
    cases d <;> rfl
  have h := sum_map_filter_partition (fun pd => pd.2 == PacketDirection.FORWARD)
    (fun pd => header_size pd.1) feat.packets
  unfold get_forward_header_bytes get_reverse_header_bytes
  rw [hfun]
  exact h

/-- C3: in a fresh session, constructing one flow accountant and calling any
one of the four total-* getters returns exactly 0, for every flow and
resolver, regardless of the flow's own per-flow statistic. -/
theorem C3_first_flow_totals_zero (hw : String → String) (feat : FlowContext) :
    (get_total_bytes_sent hw feat (init freshCounters)).1 = 0 ∧
    (get_total_bytes_received hw feat (init freshCounters)).1 = 0 ∧
    (get_total_forward_bytes feat (init freshCounters)).1 = 0 ∧
    (get_total_reverse_bytes feat (init freshCounters)).1 = 0 := by
  refine ⟨?_, ?_, ?_, ?_⟩ <;>
    simp [get_total_bytes_sent_fst, get_total_bytes_received_fst,
      get_total_forward_bytes_fst, get_total_reverse_bytes_fst, init, freshCounters]

/-- C4: after the first flow of a session is processed (constructed, its
total-* getter called once), constructing a second accountant and calling the
corresponding total-* getter returns exactly the second flow's own per-flow
statistic, for every pair of flows and every resolver. -/
theorem C4_second_flow_totals (hw : String → String) (f1 f2 : FlowContext) :
    (get_total_bytes_sent hw f2
        (init (get_total_bytes_sent hw f1 (init freshCounters)).2)).1 =
      (get_bytes_sent hw f2 : Int) ∧
    (get_total_bytes_received hw f2
        (init (get_total_bytes_received hw f1 (init freshCounters)).2)).1 =
      (get_bytes_received hw f2 : Int) ∧
    (get_total_forward_bytes f2
        (init (get_total_forward_bytes f1 (init freshCounters)).2)).1 =
      (get_forward_header_bytes f2 : Int) ∧
    (get_total_reverse_bytes f2
        (init (get_total_reverse_bytes f1 (init freshCounters)).2)).1 =
      (get_reverse_header_bytes f2 : Int) := by
  refine ⟨?_, ?_, ?_, ?_⟩ <;>
    simp [get_total_bytes_sent_fst, get_total_bytes_received_fst,
      get_total_forward_bytes_fst, get_total_reverse_bytes_fst,
      get_total_bytes_sent_snd, get_total_bytes_received_snd,
      get_total_forward_bytes_snd, get_total_reverse_bytes_snd,
      init, freshCounters]

/-- C6: the per-flow header ratio is the sentinel -1 exactly when the flow's
reverse header bytes are 0 and `forward / reverse` otherwise; the session
ratio is -1 exactly when the cumulative reverse total is 0 and
`forward total / reverse total` otherwise, for every flow and session state. -/
theorem C6_ratio_sentinel (feat : FlowContext) (s : SessionCounters) :
    get_header_in_out_ratio feat =
      (if get_reverse_header_bytes feat = 0 then -1
       else (get_forward_header_bytes feat : ℚ) / (get_reverse_header_bytes feat : ℚ)) ∧
    get_total_header_in_out_ratio s =
      (if s.total_reverse_header_bytes = 0 then -1
       else (s.total_forward_header_bytes : ℚ) / (s.total_reverse_header_bytes : ℚ)) := by
  constructor
  · unfold get_header_in_out_ratio
    by_cases h : get_reverse_header_bytes feat = 0 <;> simp [h]
  · unfold get_total_header_in_out_ratio
    by_cases h : s.total_reverse_header_bytes = 0 <;> simp [h]

/-- C5: under a valid (nonnegative elapsed) duration, each of the four rate
getters returns the sentinel -1 when the duration is exactly 0, and the
corresponding byte count divided by the duration when it is nonzero. -/
theorem C5_rate_sentinels (hw : String → String) (feat : FlowContext) (d : ℚ)
    (h : DurationValid d) :
    get_sent_rate hw feat d = (if d = 0 then -1 else (get_bytes_sent hw feat : ℚ) / d) ∧
    get_received_rate hw feat d = (if d = 0 then -1 else (get_bytes_received hw feat : ℚ) / d) ∧
    get_forward_rate feat d = (if d = 0 then -1 else (get_forward_header_bytes feat : ℚ) / d) ∧
    get_reverse_rate feat d = (if d = 0 then -1 else (get_reverse_header_bytes feat : ℚ) / d) := by
  refine ⟨rfl, rfl, ?_, rfl⟩
  unfold get_forward_rate
  by_cases hd : d = 0
  · simp [hd]
  · have hpos : 0 < d := lt_of_le_of_ne h (Ne.symm hd)
    simp [hd, hpos]

/-- Witness for C5 at the concrete three-packet flow `flowC` and duration 2. -/
theorem C5_rate_sentinels_witness :
    DurationValid 2 ∧
    (get_sent_rate hw0 flowC 2 = (if (2 : ℚ) = 0 then -1 else (get_bytes_sent hw0 flowC : ℚ) / 2) ∧
     get_received_rate hw0 flowC 2 =
       (if (2 : ℚ) = 0 then -1 else (get_bytes_received hw0 flowC : ℚ) / 2) ∧
     get_forward_rate flowC 2 =
       (if (2 : ℚ) = 0 then -1 else (get_forward_header_bytes flowC : ℚ) / 2) ∧
     get_reverse_rate flowC 2 =
       (if (2 : ℚ) = 0 then -1 else (get_reverse_header_bytes flowC : ℚ) / 2)) :=
  ⟨by norm_num [DurationValid], C5_rate_sentinels hw0 flowC 2 (by norm_num [DurationValid])⟩

/-- C10: each total-* getter mutates only its own session counter and leaves
`row` and the three other cumulative totals unchanged, for every flow,
resolver and session state (the remaining getters are pure functions of their
inputs in this embedding and touch no session counter at all). -/
theorem C10_total_getters_frame (hw : String → String) (feat : FlowContext)
    (s : SessionCounters) :
    ((get_total_bytes_sent hw feat s).2.row = s.row ∧
      (get_total_bytes_sent hw feat s).2.total_bytes_received = s.total_bytes_received ∧
      (get_total_bytes_sent hw feat s).2.total_forward_header_bytes =
        s.total_forward_header_bytes ∧
      (get_total_bytes_sent hw feat s).2.total_reverse_header_bytes =
        s.total_reverse_header_bytes) ∧
    ((get_total_bytes_received hw feat s).2.row = s.row ∧
      (get_total_bytes_received hw feat s).2.total_bytes_sent = s.total_bytes_sent ∧
      (get_total_bytes_received hw feat s).2.total_forward_header_bytes =
        s.total_forward_header_bytes ∧
      (get_total_bytes_received hw feat s).2.total_reverse_header_bytes =
        s.total_reverse_header_bytes) ∧
    ((get_total_forward_bytes feat s).2.row = s.row ∧
      (get_total_forward_bytes feat s).2.total_bytes_sent = s.total_bytes_sent ∧
      (get_total_forward_bytes feat s).2.total_bytes_received = s.total_bytes_received ∧
      (get_total_forward_bytes feat s).2.total_reverse_header_bytes =
        s.total_reverse_header_bytes) ∧
    ((get_total_reverse_bytes feat s).2.row = s.row ∧
      (get_total_reverse_bytes feat s).2.total_bytes_sent = s.total_bytes_sent ∧
      (get_total_reverse_bytes feat s).2.total_bytes_received = s.total_bytes_received ∧
      (get_total_reverse_bytes feat s).2.total_forward_header_bytes =
        s.total_forward_header_bytes) := by
  simp [get_total_bytes_sent_snd, get_total_bytes_received_snd,
    get_total_forward_bytes_snd, get_total_reverse_bytes_snd]

/-- `ttlList` succeeds exactly when every packet of the list has an IP layer. -/
theorem ttlList_isSome (l : List (Packet × PacketDirection)) :
    (ttlList l).isSome = l.all fun pd => pd.1.ipTtl.isSome := by
  induction l with
  | nil => rfl
  | cons pd rest ih =>
    cases h : pd.1.ipTtl with
    | none => simp [ttlList, h]
    | some t =>
      cases h2 : ttlList rest with
      | none =>
        have hall : rest.all (fun pd => pd.1.ipTtl.isSome) = false := by
          rw [← ih, h2]; rfl
        simp [ttlList, h, h2, hall]
      | some ts =>
        have hall : rest.all (fun pd => pd.1.ipTtl.isSome) = true := by
          rw [← ih, h2]; rfl
        simp [ttlList, h, h2, hall]

/-- The TTL-list-then-first computation returns the first packet's TTL when
every packet has one, and fails otherwise. -/
theorem ttlList_first_eq (l : List (Packet × PacketDirection)) :
    (ttlList l).bind (fun ts => ts[0]?) =
      if l.all (fun pd => pd.1.ipTtl.isSome) then l.head?.bind (fun pd => pd.1.ipTtl)
      else none := by
  induction l with
  | nil => rfl
  | cons pd rest ih =>
    cases h : pd.1.ipTtl with
    | none => simp [ttlList, h]
    | some t =>
      cases h2 : ttlList rest with
      | none =>
        have hall : rest.all (fun pd => pd.1.ipTtl.isSome) = false := by
          have hs := ttlList_isSome rest
          rw [h2] at hs
          simpa using hs.symm
        simp [ttlList, h, h2, hall]
      | some ts =>
        have hall : rest.all (fun pd => pd.1.ipTtl.isSome) = true := by
          have hs := ttlList_isSome rest
          rw [h2] at hs
          simpa using hs.symm
        simp [ttlList, h, h2, hall]

/-- C2 counterexample: `flowNoIp` is non-empty and its first packet is an IP
packet with TTL 64, yet `get_initial_ttl` fails, because the source extracts
the TTL of every packet (the second has no IP layer) before taking element 0.
The claim predicts the value 64 here. -/
theorem C2_counterexample :
    flowNoIp.packets ≠ [] ∧
    (flowNoIp.packets.head?.bind fun pd => pd.1.ipTtl) = some 64 ∧
    get_initial_ttl flowNoIp = none := by
  refine ⟨by decide, rfl, rfl⟩

/-- C2 amended: `get_initial_ttl` returns the `ip_ttl` of the first packet of
the ordered sequence exactly when the sequence is non-empty and every packet
(not only the first) has an IP layer; it fails with no value exactly when the
sequence is empty or any packet lacks an IP layer. -/
theorem C2_initial_ttl_amended (feat : FlowContext) :
    get_initial_ttl feat =
      if feat.packets.all (fun pd => pd.1.ipTtl.isSome) then
        feat.packets.head?.bind fun pd => pd.1.ipTtl
      else none := by
  unfold get_initial_ttl
  exact ttlList_first_eq feat.packets

/-- Sequentially processing one flow from a state with `row ≥ 1` (some flow
accountant already constructed) adds each invoked total-* getter's per-flow
value to its counter and increments `row`. -/
theorem processFlow_of_ge_one (hw : String → String) (j : FlowJob)
    (s : SessionCounters) (h : 1 ≤ s.row) :
    processFlow hw j s =
      { total_bytes_received := s.total_bytes_received +
          (if j.callReceived then (get_bytes_received hw j.feat : Int) else 0)
        total_bytes_sent := s.total_bytes_sent +
          (if j.callSent then (get_bytes_sent hw j.feat : Int) else 0)
        total_forward_header_bytes := s.total_forward_header_bytes +
          (if j.callForward then (get_forward_header_bytes j.feat : Int) else 0)
        total_reverse_header_bytes := s.total_reverse_header_bytes +
          (if j.callReverse then (get_reverse_header_bytes j.feat : Int) else 0)
        row := s.row + 1 } := by
  have hrow : s.row + 1 ≠ 1 := by omega
  obtain ⟨f, cs, cr, cf, cv⟩ := j
  cases cs <;> cases cr <;> cases cf <;> cases cv <;>
    simp [processFlow, init, get_total_bytes_sent_snd, get_total_bytes_received_snd,
      get_total_forward_bytes_snd, get_total_reverse_bytes_snd, hrow]

/-- Sequentially processing the first flow of a fresh session leaves every
cumulative total at 0 (whichever total-* getters it invokes) and sets `row`
to 1. -/
theorem processFlow_fresh (hw : String → String) (j : FlowJob) :
    processFlow hw j freshCounters =
      { total_bytes_received := 0
        total_bytes_sent := 0
        total_forward_header_bytes := 0
        total_reverse_header_bytes := 0
        row := 1 } := by
  obtain ⟨f, cs, cr, cf, cv⟩ := j
  cases cs <;> cases cr <;> cases cf <;> cases cv <;>
    simp [processFlow, init, freshCounters, get_total_bytes_sent_snd,
      get_total_bytes_received_snd, get_total_forward_bytes_snd,
      get_total_reverse_bytes_snd]

/-- Running a sequential session from a state with `row ≥ 1` accumulates, for
each counter, the sum of per-flow values of the jobs that invoke that
counter's getter. -/
theorem runSession_of_ge_one (hw : String → String) (jobs : List FlowJob)
    (s : SessionCounters) (h : 1 ≤ s.row) :
    runSession hw jobs s =
      { total_bytes_received := s.total_bytes_received + sumReceived hw jobs
        total_bytes_sent := s.total_bytes_sent + sumSent hw jobs
        total_forward_header_bytes := s.total_forward_header_bytes + sumForward jobs
        total_reverse_header_bytes := s.total_reverse_header_bytes + sumReverse jobs
        row := s.row + jobs.length } := by
  induction jobs generalizing s with
  | nil => simp [runSession, sumSent, sumReceived, sumForward, sumReverse]
  | cons j rest ih =>
    have hstep := processFlow_of_ge_one hw j s h
    have h2 : 1 ≤ (processFlow hw j s).row := by
      rw [hstep]; show 1 ≤ s.row + 1; omega
    have hrun : runSession hw (j :: rest) s = runSession hw rest (processFlow hw j s) := rfl
    rw [hrun, ih _ h2, hstep]
    simp only [SessionCounters.mk.injEq, sumSent, sumReceived, sumForward, sumReverse,
      List.length_cons]
    refine ⟨by ring, by ring, by ring, by ring, by omega⟩

/-- C1 counterexample: in the interleaved trace that constructs two
accountants and only then invokes each one's sent-total getter once (at most
once per flow, as the claim allows), the first flow's 5 sent bytes do
accumulate: the final cumulative total is 12 = 5 + 7, and replacing the first
flow by an empty one changes the total to 7.  The claim predicts that the
first flow contributes nothing, i.e. a total of 7 in both runs. -/
theorem C1_counterexample :
    (runTrace hw0 [Event.construct flowA, Event.construct flowB,
        Event.callSent 0, Event.callSent 1] freshSession).counters.total_bytes_sent = 12 ∧
    (runTrace hw0 [Event.construct flowA0, Event.construct flowB,
        Event.callSent 0, Event.callSent 1] freshSession).counters.total_bytes_sent = 7 ∧
    get_bytes_sent hw0 flowA = 5 ∧
    get_bytes_sent hw0 flowB = 7 ∧
    (12 : Int) ≠ 7 := by
  refine ⟨rfl, rfl, rfl, rfl, by decide⟩

/-- C1 amended: when the session is sequential — each accountant's total-*
getter invocations (each at most once) happen before the next accountant is
constructed — the first flow contributes nothing to any of the four cumulative
totals: each final total is exactly the sum of the per-flow values of the
second and later flows that invoked the corresponding getter, and `row`
counts one per constructed accountant. -/
theorem C1_sequential_totals_amended (hw : String → String) (jobs : List FlowJob) :
    (runSession hw jobs freshCounters).row = jobs.length ∧
    (runSession hw jobs freshCounters).total_bytes_sent = sumSent hw (jobs.drop 1) ∧
    (runSession hw jobs freshCounters).total_bytes_received = sumReceived hw (jobs.drop 1) ∧
    (runSession hw jobs freshCounters).total_forward_header_bytes = sumForward (jobs.drop 1) ∧
    (runSession hw jobs freshCounters).total_reverse_header_bytes = sumReverse (jobs.drop 1) := by
  cases jobs with
  | nil =>
    refine ⟨rfl, rfl, rfl, rfl, rfl⟩
  | cons j rest =>
    have hrun : runSession hw (j :: rest) freshCounters =
        runSession hw rest (processFlow hw j freshCounters) := rfl
    rw [hrun, processFlow_fresh hw j,
      runSession_of_ge_one hw rest _ (by norm_num)]
    simp [Nat.add_comm]

end Barks
